/-
  Verification of `hailo_perf_query.cpp` (RPI-Hailo-10H-Web-Dashboard).

  The program scans for Hailo devices, opens the first one, issues the two
  independent telemetry queries `query_performance_stats` and
  `query_health_stats`, and prints the results as a single JSON object on
  standard output with `printf`.  Fatal conditions (no device, open failure)
  print one line to standard error and exit 1; otherwise the process exits 0.

  The development embeds the program shallowly:
  * machine integers are `Nat`/`Int` with the narrowing conversions made
    explicit (`toLongLong` models the C cast `(long long)` of a `uint64_t`);
  * the C `float`/`double` telemetry fields are modelled as `Rat`, and the
    `printf` conversion `%g` (default precision 6) is implemented exactly on
    rationals by `fmtG` (round to 6 significant digits half-up, then fixed or
    scientific style with trailing fraction zeros stripped);
  * the external HailoRT SDK is an explicit environment (`Env`): the scan
    result and, per device identifier, the open result and the two query
    results; fallible SDK calls are `Except Int`;
  * the process run is the pure function `runMain : Env → ProcResult`,
    returning exit code, the full standard output and standard error texts,
    and the trace of SDK calls issued.
-/
import Mathlib

/- The Batteries `Rat` operations are `@[irreducible]` by default, which stops
   `decide` from evaluating concrete rational telemetry values; restore the
   ordinary reducibility so that concrete runs of the program reduce. -/
set_option allowUnsafeReducibility true
attribute [semireducible] Rat.ofScientific Rat.mul Rat.inv Rat.add Rat.sub

/-! ### Decimal digit utilities -/

/-- Decimal digits of `n`, most significant first (`[]` for `0`).
    Structural recursion on an explicit fuel so that it reduces in the kernel;
    fuel `n` always suffices. -/
def natDigitsAux : Nat → Nat → List Nat
  | 0, _ => []
  | f + 1, n => if n = 0 then [] else natDigitsAux f (n / 10) ++ [n % 10]

def natDigits (n : Nat) : List Nat := natDigitsAux n n

theorem natDigitsAux_zero (f : Nat) : natDigitsAux f 0 = [] := by
  cases f <;> simp [natDigitsAux]

theorem natDigitsAux_congr :
    ∀ f g n : Nat, n ≤ f → n ≤ g → natDigitsAux f n = natDigitsAux g n := by
  intro f
  induction f with
  | zero =>
    intro g n hf _
    have : n = 0 := Nat.le_zero.mp hf
    subst this
    rw [natDigitsAux_zero, natDigitsAux_zero]
  | succ f ih =>
    intro g n hf hg
    by_cases h0 : n = 0
    · subst h0; rw [natDigitsAux_zero, natDigitsAux_zero]
    · have hn : 1 ≤ n := Nat.one_le_iff_ne_zero.mpr h0
      obtain ⟨g0, rfl⟩ : ∃ g0, g = g0 + 1 := by
        cases g with
        | zero => omega
        | succ g0 => exact ⟨g0, rfl⟩
      have hdiv : n / 10 < n := Nat.div_lt_self hn (by norm_num)
      simp only [natDigitsAux, h0, if_false]
      rw [ih g0 (n / 10) (by omega) (by omega)]

theorem natDigits_cons (n : Nat) (h : 1 ≤ n) :
    natDigits n = natDigits (n / 10) ++ [n % 10] := by
  obtain ⟨k, rfl⟩ : ∃ k, n = k + 1 := ⟨n - 1, by omega⟩
  have hdiv : (k + 1) / 10 < k + 1 := Nat.div_lt_self (by omega) (by norm_num)
  show natDigitsAux (k + 1) (k + 1) = natDigits ((k + 1) / 10) ++ [(k + 1) % 10]
  simp only [natDigitsAux, if_neg (Nat.succ_ne_zero k)]
  rw [natDigitsAux_congr k ((k + 1) / 10) ((k + 1) / 10) (by omega) (le_refl _)]
  rfl

theorem natDigits_lt_ten : ∀ n : Nat, ∀ d ∈ natDigits n, d < 10 := by
  intro n
  induction n using Nat.strong_induction_on with
  | _ n ih =>
    intro d hd
    by_cases h0 : n = 0
    · subst h0; simp [natDigits, natDigitsAux_zero] at hd
    · rw [natDigits_cons n (by omega)] at hd
      rcases List.mem_append.mp hd with h | h
      · exact ih (n / 10) (Nat.div_lt_self (by omega) (by norm_num)) d h
      · simp at h; subst h; exact Nat.mod_lt n (by norm_num)

theorem natDigits_ne_nil (n : Nat) (h : 1 ≤ n) : natDigits n ≠ [] := by
  rw [natDigits_cons n h]; simp

theorem natDigits_headD_ne_zero : ∀ n : Nat, 1 ≤ n → (natDigits n).headD 0 ≠ 0 := by
  intro n
  induction n using Nat.strong_induction_on with
  | _ n ih =>
    intro h
    rw [natDigits_cons n h]
    by_cases hsmall : n < 10
    · have : n / 10 = 0 := Nat.div_eq_of_lt hsmall
      rw [this]
      simp [natDigits, natDigitsAux_zero, Nat.mod_eq_of_lt hsmall]
      omega
    · have h10 : 1 ≤ n / 10 := Nat.one_le_div_iff (by norm_num) |>.mpr (by omega)
      have hne : natDigits (n / 10) ≠ [] := natDigits_ne_nil _ h10
      obtain ⟨a, l, hl⟩ : ∃ a l, natDigits (n / 10) = a :: l := by
        cases hcc : natDigits (n / 10) with
        | nil => exact absurd hcc hne
        | cons a l => exact ⟨a, l, rfl⟩
      have := ih (n / 10) (Nat.div_lt_self (by omega) (by norm_num)) h10
      rw [hl] at this ⊢
      simpa using this

/-- The number a most-significant-first digit list denotes. -/
def digitsVal (ds : List Nat) : Nat := ds.foldl (fun a d => 10 * a + d) 0

theorem digitsVal_append_singleton (ds : List Nat) (d : Nat) :
    digitsVal (ds ++ [d]) = 10 * digitsVal ds + d := by
  simp [digitsVal, List.foldl_append]

theorem digitsVal_natDigits : ∀ n : Nat, digitsVal (natDigits n) = n := by
  intro n
  induction n using Nat.strong_induction_on with
  | _ n ih =>
    by_cases h0 : n = 0
    · subst h0; simp [natDigits, natDigitsAux_zero, digitsVal]
    · rw [natDigits_cons n (by omega), digitsVal_append_singleton,
        ih (n / 10) (Nat.div_lt_self (by omega) (by norm_num))]
      omega

/-- Digits of `n` for decimal printing: `[0]` for `0`, else `natDigits n`. -/
def natDecDigits (n : Nat) : List Nat := if n = 0 then [0] else natDigits n

theorem natDecDigits_lt_ten (n : Nat) : ∀ d ∈ natDecDigits n, d < 10 := by
  intro d hd
  by_cases h0 : n = 0
  · subst h0; simp [natDecDigits] at hd; omega
  · simp only [natDecDigits, if_neg h0] at hd
    exact natDigits_lt_ten n d hd

theorem digitsVal_natDecDigits (n : Nat) : digitsVal (natDecDigits n) = n := by
  by_cases h0 : n = 0
  · subst h0; simp [natDecDigits, digitsVal]
  · simp only [natDecDigits, if_neg h0]; exact digitsVal_natDigits n

/-! ### Base-10 logarithm on `Nat` (fueled, kernel-reducible) -/

def nlogAux : Nat → Nat → Nat
  | 0, _ => 0
  | f + 1, n => if n < 10 then 0 else nlogAux f (n / 10) + 1

/-- `nlog10 n` is `⌊log₁₀ n⌋` for `n ≥ 1`. -/
def nlog10 (n : Nat) : Nat := nlogAux n n

theorem nlogAux_spec :
    ∀ f n : Nat, 1 ≤ n → n ≤ f →
      10 ^ nlogAux f n ≤ n ∧ n < 10 ^ (nlogAux f n + 1) := by
  intro f
  induction f with
  | zero => intro n h1 h2; omega
  | succ f ih =>
    intro n h1 h2
    by_cases hsmall : n < 10
    · simp only [nlogAux, if_pos hsmall]
      constructor <;> simpa
    · simp only [nlogAux, if_neg hsmall]
      have h10 : 1 ≤ n / 10 := Nat.one_le_div_iff (by norm_num) |>.mpr (by omega)
      have hlt : n / 10 < n := Nat.div_lt_self (by omega) (by norm_num)
      obtain ⟨hlo, hhi⟩ := ih (n / 10) h10 (by omega)
      constructor
      · calc 10 ^ (nlogAux f (n / 10) + 1) = 10 ^ nlogAux f (n / 10) * 10 := by
              rw [Nat.pow_succ]
          _ ≤ n / 10 * 10 := Nat.mul_le_mul_right 10 hlo
          _ ≤ n := Nat.div_mul_le_self n 10
      · have hstep : n / 10 + 1 ≤ 10 ^ (nlogAux f (n / 10) + 1) := hhi
        calc n < 10 * (n / 10) + 10 := by omega
          _ = (n / 10 + 1) * 10 := by ring
          _ ≤ 10 ^ (nlogAux f (n / 10) + 1) * 10 := Nat.mul_le_mul_right 10 hstep
          _ = 10 ^ (nlogAux f (n / 10) + 1 + 1) := Eq.symm (Nat.pow_succ 10 (nlogAux f (n / 10) + 1))

theorem nlog10_spec (n : Nat) (h : 1 ≤ n) :
    10 ^ nlog10 n ≤ n ∧ n < 10 ^ (nlog10 n + 1) :=
  nlogAux_spec n n h (le_refl n)

/-! ### Rational helpers for the `%g` formatter -/

/-- `⌊x⌋` computed directly on the `Rat` representation (kernel-reducible). -/
def ratFloor (x : Rat) : Int := x.num / (x.den : Int)

/-- `⌈x⌉` computed via `ratFloor` (kernel-reducible). -/
def ratCeil (x : Rat) : Int := -ratFloor (-x)

theorem ratFloor_eq (x : Rat) : ratFloor x = ⌊x⌋ := (Rat.floor_def).symm

theorem ratCeil_eq (x : Rat) : ratCeil x = ⌈x⌉ := by
  rw [ratCeil, ratFloor_eq]
  rw [show (⌈x⌉ : Int) = -⌊-x⌋ from by rw [← Int.ceil_neg, neg_neg]]

/-- `10^k` over `Rat` for an integer exponent, as the source of truth for the
    `%g` scaling step (kernel-reducible; agrees with `zpow`). -/
def pow10Z (k : Int) : Rat :=
  if 0 ≤ k then (10 : Rat) ^ k.toNat else ((10 : Rat) ^ (-k).toNat)⁻¹

theorem pow10Z_eq_zpow (k : Int) : pow10Z k = (10 : Rat) ^ k := by
  by_cases h : 0 ≤ k
  · rw [pow10Z, if_pos h, ← zpow_natCast, Int.toNat_of_nonneg h]
  · rw [pow10Z, if_neg h, ← zpow_natCast, Int.toNat_of_nonneg (by omega : (0:Int) ≤ -k),
      ← zpow_neg, neg_neg]

theorem pow10Z_pos (k : Int) : 0 < pow10Z k := by
  rw [pow10Z_eq_zpow]; exact zpow_pos (by norm_num) k

/-- `⌊log₁₀ x⌋` for a positive rational (kernel-reducible). -/
def ratLog10Floor (x : Rat) : Int :=
  if 1 ≤ x then (nlog10 (ratFloor x).toNat : Int)
  else -((nlog10 ((ratCeil x⁻¹).toNat - 1) : Int) + 1)

/-- The defining bracket of the base-10 logarithm: for `x > 0`,
    `10 ^ ratLog10Floor x ≤ x < 10 ^ (ratLog10Floor x + 1)`. -/
theorem ratLog10Floor_spec (x : Rat) (hx : 0 < x) :
    pow10Z (ratLog10Floor x) ≤ x ∧ x < pow10Z (ratLog10Floor x + 1) := by
  by_cases h1 : 1 ≤ x
  · -- x ≥ 1 : use the integer logarithm of ⌊x⌋
    have hfl : (1 : Int) ≤ ⌊x⌋ := by
      rw [Int.le_floor]; exact_mod_cast h1
    set n : Nat := (ratFloor x).toNat with hn
    have hn1 : 1 ≤ n := by
      rw [hn, ratFloor_eq]; omega
    have hncast : (n : Int) = ⌊x⌋ := by
      rw [hn, ratFloor_eq]; omega
    obtain ⟨hlo, hhi⟩ := nlog10_spec n hn1
    rw [ratLog10Floor, if_pos h1]
    constructor
    · rw [pow10Z, if_pos (by positivity)]
      have htn : ((nlog10 (ratFloor x).toNat : Int)).toNat = nlog10 n := by
        rw [hn]; omega
      rw [htn]
      calc ((10 : Rat) ^ nlog10 n) ≤ (n : Rat) := by exact_mod_cast hlo
        _ = ((⌊x⌋ : Int) : Rat) := by exact_mod_cast congrArg (fun z => ((z : Int) : Rat)) hncast
        _ ≤ x := Int.floor_le x
    · rw [pow10Z, if_pos (by positivity)]
      have htn : ((nlog10 (ratFloor x).toNat : Int) + 1).toNat = nlog10 n + 1 := by
        rw [hn]; omega
      rw [htn]
      have hlt : x < ((⌊x⌋ : Int) : Rat) + 1 := Int.lt_floor_add_one x
      have hsucc : ((⌊x⌋ : Int) : Rat) + 1 ≤ (10 : Rat) ^ (nlog10 n + 1) := by
        have : (n : Int) + 1 ≤ (10 ^ (nlog10 n + 1) : Nat) := by exact_mod_cast hhi
        have hq : ((n : Rat)) + 1 ≤ ((10 ^ (nlog10 n + 1) : Nat) : Rat) := by exact_mod_cast this
        calc ((⌊x⌋ : Int) : Rat) + 1 = (n : Rat) + 1 := by
              rw [← hncast]; norm_num
          _ ≤ ((10 ^ (nlog10 n + 1) : Nat) : Rat) := hq
          _ = (10 : Rat) ^ (nlog10 n + 1) := by push_cast; ring
      exact lt_of_lt_of_le hlt hsucc
  · -- 0 < x < 1 : use the ceiling logarithm of ⌈x⁻¹⌉
    have hxlt : x < 1 := lt_of_not_ge h1
    have hy : 1 < x⁻¹ := (one_lt_inv₀ hx).mpr hxlt
    have hypos : 0 < x⁻¹ := by positivity
    have hceil2 : (2 : Int) ≤ ⌈x⁻¹⌉ := by
      have : (1 : Int) < ⌈x⁻¹⌉ := by
        rw [Int.lt_ceil]; exact_mod_cast hy
      omega
    set c : Nat := (ratCeil x⁻¹).toNat with hc
    have hccast : (c : Int) = ⌈x⁻¹⌉ := by
      rw [hc, ratCeil_eq]; omega
    have hc2 : 2 ≤ c := by omega
    obtain ⟨hlo, hhi⟩ := nlog10_spec (c - 1) (by omega)
    set L : Nat := nlog10 (c - 1) with hL
    rw [ratLog10Floor, if_neg h1]
    have hyle : x⁻¹ ≤ (c : Rat) := by
      calc x⁻¹ ≤ ((⌈x⁻¹⌉ : Int) : Rat) := Int.le_ceil x⁻¹
        _ = (c : Rat) := by rw [← hccast]; norm_num
    have hygt : (10 : Rat) ^ L < x⁻¹ := by
      have h1c : ((10 ^ L : Nat) : Rat) ≤ ((c - 1 : Nat) : Rat) := by exact_mod_cast hlo
      have h2c : ((c - 1 : Nat) : Rat) < x⁻¹ := by
        have hlt : ((⌈x⁻¹⌉ : Int) : Rat) - 1 < x⁻¹ := by
          have := Int.ceil_lt_add_one x⁻¹
          linarith
        calc ((c - 1 : Nat) : Rat) = ((⌈x⁻¹⌉ : Int) : Rat) - 1 := by
              rw [← hccast]; push_cast [Nat.cast_sub (by omega : 1 ≤ c)]; ring
          _ < x⁻¹ := hlt
      calc (10 : Rat) ^ L = ((10 ^ L : Nat) : Rat) := by push_cast; ring
        _ ≤ ((c - 1 : Nat) : Rat) := h1c
        _ < x⁻¹ := h2c
    have hcle : (c : Rat) ≤ (10 : Rat) ^ (L + 1) := by
      have : (c : Nat) ≤ 10 ^ (L + 1) := by omega
      calc (c : Rat) ≤ ((10 ^ (L + 1) : Nat) : Rat) := by exact_mod_cast this
        _ = (10 : Rat) ^ (L + 1) := by push_cast; ring
    constructor
    · -- 10 ^ (-(L+1)) ≤ x
      rw [pow10Z, if_neg (by omega)]
      have htn : (-(-((L : Int) + 1))).toNat = L + 1 := by omega
      rw [htn]
      rw [inv_le_comm₀ (by positivity) hx]
      exact le_trans hyle hcle
    · -- x < 10 ^ (-L)
      have harg : -((L : Int) + 1) + 1 = -(L : Int) := by ring
      rw [harg]
      by_cases hL0 : L = 0
      · have hone : pow10Z (-(L : Int)) = 1 := by
          rw [hL0]; simp [pow10Z]
        rw [hone]
        exact hxlt
      · rw [pow10Z, if_neg (by omega)]
        have htn : (-(-(L : Int))).toNat = L := by omega
        rw [htn]
        rw [lt_inv_comm₀ hx (by positivity)]
        exact hygt

/-! ### JSON numerals -/

/-- A JSON numeric literal in structured form: optional sign, integer digits,
    optional fraction digits, optional exponent (sign, digits). -/
structure JNum where
  neg : Bool
  intPart : List Nat
  fracPart : List Nat
  expPart : Option (Bool × List Nat)
deriving DecidableEq

/-- Well-formedness against the JSON number grammar: nonempty integer part of
    decimal digits with no leading zero (unless it is exactly `0`), digit-only
    fraction, nonempty digit-only exponent when present. -/
def JNum.wf (n : JNum) : Bool :=
  (!n.intPart.isEmpty) && n.intPart.all (fun d => decide (d < 10)) &&
  (n.intPart == [0] || n.intPart.headD 0 != 0) &&
  n.fracPart.all (fun d => decide (d < 10)) &&
  n.expPart.all (fun p => (!p.2.isEmpty) && p.2.all (fun d => decide (d < 10)))

def digitsStr (ds : List Nat) : String :=
  String.mk (ds.map (fun d => Char.ofNat (48 + d)))

/-- Text of a JSON numeral, e.g. `-9.5e-06` or `1073741824`. -/
def JNum.render (n : JNum) : String :=
  (if n.neg then "-" else "") ++ digitsStr n.intPart ++
  (if n.fracPart.isEmpty then "" else "." ++ digitsStr n.fracPart) ++
  (match n.expPart with
   | none => ""
   | some p => "e" ++ (if p.1 then "-" else "+") ++ digitsStr p.2)

/-- The numeral `printf("%d", i)` (or `%lld`) produces for a mathematical
    integer in range: optional minus sign and the decimal digits of `|i|`. -/
def intJNum (i : Int) : JNum := ⟨decide (i < 0), natDecDigits i.natAbs, [], none⟩

/-- `%d`/`%lld` output as a string. -/
def intDec (i : Int) : String := (intJNum i).render

/-- Non-negative decimal numeral of a `Nat` (what `%llu` would print). -/
def natDec (n : Nat) : String := digitsStr (natDecDigits n)

/-! ### The `%g` conversion on rationals (default precision 6) -/

/-- Drop trailing zeros of a fraction-digit list (the `%g` "remove trailing
    zeros" step; applies to the fractional part only). -/
def stripTrailingZeros (ds : List Nat) : List Nat :=
  (ds.reverse.dropWhile (fun d => d == 0)).reverse

/-- The six decimal digits of an `m` with `10^5 ≤ m < 10^6`, most significant
    first (the rounded 6-significant-digit mantissa of `%g`). -/
def sixDigits (m : Nat) : List Nat :=
  [m / 100000 % 10, m / 10000 % 10, m / 1000 % 10, m / 100 % 10, m / 10 % 10, m % 10]

/-- Exponent digits: at least two, zero-padded on the left, as `%g` prints. -/
def leftPad2 (ds : List Nat) : List Nat := List.replicate (2 - ds.length) 0 ++ ds

/-- Mantissa and decimal exponent of `x > 0` for `%g`: round `x` to six
    significant digits (half-up), bumping the exponent when rounding carries
    into a seventh digit. -/
def fmtGdigits (x : Rat) : Nat × Int :=
  let X0 := ratLog10Floor x
  let m0 := (ratFloor (x * pow10Z (5 - X0) + 1 / 2)).toNat
  if m0 = 1000000 then (100000, X0 + 1) else (m0, X0)

/-- Assemble the `%g` numeral from mantissa digits `ds` (six digits, leading
    digit nonzero) and exponent `X`: fixed style for `-4 ≤ X < 6` (precision
    `6 - 1 - X`), scientific style otherwise, trailing fraction zeros
    stripped in both styles. -/
def fmtGbody (neg : Bool) (ds : List Nat) (X : Int) : JNum :=
  if -4 ≤ X ∧ X < 6 then
    if 0 ≤ X then
      ⟨neg, ds.take (X.toNat + 1), stripTrailingZeros (ds.drop (X.toNat + 1)), none⟩
    else
      ⟨neg, [0], stripTrailingZeros (List.replicate ((-X).toNat - 1) 0 ++ ds), none⟩
  else
    ⟨neg, [ds.headD 0], stripTrailingZeros ds.tail,
      some (decide (X < 0), leftPad2 (natDigits X.natAbs))⟩

/-- `printf("%g", x)` on a rational, in structured numeral form.  `0` prints
    as `0`; otherwise sign plus `fmtGbody` of the rounded mantissa/exponent.
    (The model rounds the exact rational half-up where C rounds the closest
    binary double; the two agree away from decimal rounding boundaries.) -/
def fmtG (q : Rat) : JNum :=
  if q = 0 then ⟨false, [0], [], none⟩
  else fmtGbody (decide (q < 0)) (sixDigits (fmtGdigits |q|).1) (fmtGdigits |q|).2

/-- `%g` output as a string. -/
def fmtGStr (q : Rat) : String := (fmtG q).render

/-! ### Range facts about the rounded mantissa -/

theorem fmtGdigits_bounds (x : Rat) (hx : 0 < x) :
    100000 ≤ (fmtGdigits x).1 ∧ (fmtGdigits x).1 < 1000000 := by
  obtain ⟨hlo, hhi⟩ := ratLog10Floor_spec x hx
  set X0 := ratLog10Floor x with hX0
  set P : Rat := pow10Z (5 - X0) with hP
  have hPpos : 0 < P := pow10Z_pos _
  have hmul5 : pow10Z X0 * P = 100000 := by
    rw [hP, pow10Z_eq_zpow, pow10Z_eq_zpow, ← zpow_add₀ (by norm_num : (10 : Rat) ≠ 0)]
    norm_num
  have hmul6 : pow10Z (X0 + 1) * P = 1000000 := by
    rw [hP, pow10Z_eq_zpow, pow10Z_eq_zpow, ← zpow_add₀ (by norm_num : (10 : Rat) ≠ 0)]
    have : X0 + 1 + (5 - X0) = (6 : Int) := by ring
    rw [this]
    norm_num
  have hy1 : (100000 : Rat) ≤ x * P := by
    calc (100000 : Rat) = pow10Z X0 * P := hmul5.symm
      _ ≤ x * P := mul_le_mul_of_nonneg_right hlo (le_of_lt hPpos)
  have hy2 : x * P < 1000000 := by
    calc x * P < pow10Z (X0 + 1) * P := mul_lt_mul_of_pos_right hhi hPpos
      _ = 1000000 := hmul6
  have hfl1 : (100000 : Int) ≤ ratFloor (x * P + 1 / 2) := by
    rw [ratFloor_eq, Int.le_floor]
    push_cast
    linarith
  have hfl2 : ratFloor (x * P + 1 / 2) < 1000001 := by
    rw [ratFloor_eq, Int.floor_lt]
    push_cast
    linarith
  show 100000 ≤ (fmtGdigits x).1 ∧ (fmtGdigits x).1 < 1000000
  rw [fmtGdigits]
  simp only [← hX0, ← hP]
  by_cases hbump : (ratFloor (x * P + 1 / 2)).toNat = 1000000
  · rw [if_pos hbump]
    constructor <;> norm_num
  · rw [if_neg hbump]
    constructor <;> omega

/-! ### Well-formedness of every `%g` numeral -/

theorem sixDigits_lt_ten (m : Nat) : ∀ d ∈ sixDigits m, d < 10 := by
  intro d hd
  simp [sixDigits] at hd
  rcases hd with h | h | h | h | h | h <;> omega

theorem sixDigits_head (m : Nat) (h1 : 100000 ≤ m) (h2 : m < 1000000) :
    m / 100000 % 10 = m / 100000 ∧ 1 ≤ m / 100000 := by omega

theorem mem_stripTrailingZeros (ds : List Nat) (d : Nat)
    (h : d ∈ stripTrailingZeros ds) : d ∈ ds := by
  rw [stripTrailingZeros, List.mem_reverse] at h
  have hsub := List.dropWhile_subset (l := ds.reverse) (fun d => d == 0)
  have := hsub h
  rwa [List.mem_reverse] at this

theorem leftPad2_ne_nil (ds : List Nat) : leftPad2 ds ≠ [] := by
  rw [leftPad2]
  cases ds with
  | nil => simp [List.replicate]
  | cons a l => simp

theorem mem_leftPad2 (ds : List Nat) (d : Nat) (h : d ∈ leftPad2 ds) :
    d = 0 ∨ d ∈ ds := by
  rw [leftPad2, List.mem_append] at h
  rcases h with h | h
  · exact Or.inl (List.eq_of_mem_replicate h)
  · exact Or.inr h

theorem fmtGbody_wf (neg : Bool) (m : Nat) (X : Int)
    (h1 : 100000 ≤ m) (h2 : m < 1000000) :
    (fmtGbody neg (sixDigits m) X).wf = true := by
  have hds := sixDigits_lt_ten m
  have hhead : m / 100000 % 10 = m / 100000 ∧ 1 ≤ m / 100000 := sixDigits_head m h1 h2
  rw [fmtGbody]
  by_cases hfix : -4 ≤ X ∧ X < 6
  · rw [if_pos hfix]
    by_cases hX : 0 ≤ X
    · rw [if_pos hX]
      rw [JNum.wf]
      simp only [Bool.and_eq_true, Bool.or_eq_true]
      refine ⟨⟨⟨⟨?_, ?_⟩, ?_⟩, ?_⟩, ?_⟩
      · simp [sixDigits, List.take_succ_cons]
      · rw [List.all_eq_true]
        intro d hd
        have := List.take_subset (X.toNat + 1) (sixDigits m) hd
        simpa using hds d this
      · right
        simp [sixDigits, List.take_succ_cons]
        omega
      · rw [List.all_eq_true]
        intro d hd
        have hmem := mem_stripTrailingZeros _ _ hd
        have := List.drop_subset (X.toNat + 1) (sixDigits m) hmem
        simpa using hds d this
      · simp
    · rw [if_neg hX]
      rw [JNum.wf]
      simp only [Bool.and_eq_true, Bool.or_eq_true]
      refine ⟨⟨⟨⟨?_, ?_⟩, ?_⟩, ?_⟩, ?_⟩
      · simp
      · simp
      · left; rfl
      · rw [List.all_eq_true]
        intro d hd
        have hmem := mem_stripTrailingZeros _ _ hd
        rcases List.mem_append.mp hmem with h | h
        · have := List.eq_of_mem_replicate h
          simp [this]
        · simpa using hds d h
      · simp
  · rw [if_neg hfix]
    rw [JNum.wf]
    simp only [Bool.and_eq_true, Bool.or_eq_true]
    refine ⟨⟨⟨⟨?_, ?_⟩, ?_⟩, ?_⟩, ?_⟩
    · simp
    · rw [List.all_eq_true]
      intro d hd
      simp [sixDigits] at hd
      subst hd
      simp [sixDigits]
      omega
    · right
      simp [sixDigits]
      omega
    · rw [List.all_eq_true]
      intro d hd
      have hmem := mem_stripTrailingZeros _ _ hd
      have hm6 : d ∈ sixDigits m := List.mem_of_mem_tail hmem
      simpa using hds d hm6
    · rw [Option.all_some, Bool.and_eq_true]
      refine ⟨?_, ?_⟩
      · simpa using leftPad2_ne_nil (natDigits X.natAbs)
      · rw [List.all_eq_true]
        intro d hd
        rcases mem_leftPad2 _ _ hd with h | h
        · simp [h]
        · simpa using natDigits_lt_ten _ d h

theorem fmtG_wf (q : Rat) : (fmtG q).wf = true := by
  rw [fmtG]
  by_cases h0 : q = 0
  · rw [if_pos h0]; rfl
  · rw [if_neg h0]
    have habs : 0 < |q| := abs_pos.mpr h0
    obtain ⟨h1, h2⟩ := fmtGdigits_bounds |q| habs
    exact fmtGbody_wf _ _ _ h1 h2

theorem intJNum_wf (i : Int) : (intJNum i).wf = true := by
  rw [intJNum, JNum.wf]
  simp only [Bool.and_eq_true, Bool.or_eq_true]
  refine ⟨⟨⟨⟨?_, ?_⟩, ?_⟩, ?_⟩, ?_⟩
  · by_cases h0 : i.natAbs = 0
    · rw [natDecDigits, if_pos h0]; rfl
    · rw [natDecDigits, if_neg h0]
      simpa using natDigits_ne_nil _ (Nat.one_le_iff_ne_zero.mpr h0)
  · rw [List.all_eq_true]
    intro d hd
    simpa using natDecDigits_lt_ten _ d hd
  · by_cases h0 : i.natAbs = 0
    · left; rw [natDecDigits, if_pos h0]; rfl
    · right
      rw [natDecDigits, if_neg h0]
      simpa using natDigits_headD_ne_zero _ (Nat.one_le_iff_ne_zero.mpr h0)
  · simp
  · simp

/-! ### Telemetry snapshots and integer conversions -/

/-- Modelled from the spec (§3): the performance snapshot returned by
    `Device::query_performance_stats` (the SDK header is external to the
    repository). `cpu_utilization` and `nnc_utilization` are floating
    fractions (modelled as `Rat`), the RAM sizes are 64-bit unsigned byte
    counts, `dsp_utilization` an integer percentage/count. -/
structure PerformanceStats where
  cpu_utilization : Rat
  ram_size_total : Nat
  ram_size_used : Nat
  nnc_utilization : Rat
  dsp_utilization : Int
deriving DecidableEq

/-- Modelled from the spec (§3): the health snapshot returned by
    `Device::query_health_stats`. `on_die_temperature` is floating,
    `on_die_voltage` an integer in a device-defined unit, and
    `bist_failure_mask` a non-negative integer bitmask (no width is given,
    so it is modelled as an unbounded non-negative integer). -/
structure HealthStats where
  on_die_temperature : Rat
  on_die_voltage : Int
  bist_failure_mask : Nat
deriving DecidableEq

/-- The C cast `(long long)` applied to a `uint64_t` value (source line
    `(long long)perf->ram_size_total`): two's-complement reinterpretation,
    so values of `2^63` and above come out negative. -/
def toLongLong (n : Nat) : Int :=
  if n % 2 ^ 64 < 2 ^ 63 then ((n % 2 ^ 64 : Nat) : Int)
  else ((n % 2 ^ 64 : Nat) : Int) - 2 ^ 64

/-! ### JSON values, members and the object printer -/

inductive JValue where
  | jbool : Bool → JValue
  | jnum : JNum → JValue
deriving DecidableEq

structure JMember where
  key : String
  val : JValue
deriving DecidableEq

def JValue.render : JValue → String
  | .jbool true => "true"
  | .jbool false => "false"
  | .jnum n => n.render

/-- The JSON type of a value, for schema comparison. -/
inductive JTag where
  | tbool
  | tnum
deriving DecidableEq

def JValue.tag : JValue → JTag
  | .jbool _ => .tbool
  | .jnum _ => .tnum

def JValue.wfB : JValue → Bool
  | .jbool _ => true
  | .jnum n => n.wf

/-- Member lines of a JSON object in the program's two-space-indented
    format: every line but the last ends with a comma. -/
def renderMembers : List JMember → String
  | [] => ""
  | [m] => "  \"" ++ m.key ++ "\": " ++ m.val.render ++ "\n"
  | m :: m2 :: rest =>
    "  \"" ++ m.key ++ "\": " ++ m.val.render ++ ",\n" ++ renderMembers (m2 :: rest)

/-- A complete JSON object literal in the program's format, brace lines on
    their own, newline-terminated. -/
def renderObj (ms : List JMember) : String := "\x7b\n" ++ renderMembers ms ++ "\x7d\n"

/-- Well-formed JSON object: every numeric value satisfies the JSON number
    grammar and the keys are distinct. -/
def membersWf (ms : List JMember) : Bool :=
  ms.all (fun m => m.val.wfB) && decide (ms.map (fun m => m.key)).Nodup

def schemaOf (ms : List JMember) : List (String × JTag) :=
  ms.map (fun m => (m.key, m.val.tag))

/-! ### The JSON members the program emits for each query outcome -/

/-- The performance block of the output object (source lines 41–51): on
    success the five data members then `perf_ok: true`; on failure
    `perf_ok: false` then `perf_error: <code>`. -/
def perfMembers : Except Int PerformanceStats → List JMember
  | .ok p =>
    [⟨"cpu_utilization", .jnum (fmtG p.cpu_utilization)⟩,
     ⟨"ram_size_total", .jnum (intJNum (toLongLong p.ram_size_total))⟩,
     ⟨"ram_size_used", .jnum (intJNum (toLongLong p.ram_size_used))⟩,
     ⟨"nnc_utilization", .jnum (fmtG p.nnc_utilization)⟩,
     ⟨"dsp_utilization", .jnum (intJNum p.dsp_utilization)⟩,
     ⟨"perf_ok", .jbool true⟩]
  | .error e =>
    [⟨"perf_ok", .jbool false⟩,
     ⟨"perf_error", .jnum (intJNum e)⟩]

/-- The health block of the output object (source lines 54–62). -/
def healthMembers : Except Int HealthStats → List JMember
  | .ok h =>
    [⟨"on_die_temperature", .jnum (fmtG h.on_die_temperature)⟩,
     ⟨"on_die_voltage", .jnum (intJNum h.on_die_voltage)⟩,
     ⟨"bist_failure_mask", .jnum (intJNum (h.bist_failure_mask : Int))⟩,
     ⟨"health_ok", .jbool true⟩]
  | .error e =>
    [⟨"health_ok", .jbool false⟩,
     ⟨"health_error", .jnum (intJNum e)⟩]

def membersOf (perf : Except Int PerformanceStats) (health : Except Int HealthStats) :
    List JMember :=
  perfMembers perf ++ healthMembers health

/-! ### The printf calls, transliterated line by line -/

/-- Standard-output text of the performance block, one string chunk per
    `printf` format-segment (source lines 41–51). -/
def perfBlock : Except Int PerformanceStats → String
  | .ok p =>
    "  \"cpu_utilization\": " ++ fmtGStr p.cpu_utilization ++ ",\n" ++
    "  \"ram_size_total\": " ++ intDec (toLongLong p.ram_size_total) ++ ",\n" ++
    "  \"ram_size_used\": " ++ intDec (toLongLong p.ram_size_used) ++ ",\n" ++
    "  \"nnc_utilization\": " ++ fmtGStr p.nnc_utilization ++ ",\n" ++
    "  \"dsp_utilization\": " ++ intDec p.dsp_utilization ++ ",\n" ++
    "  \"perf_ok\": true,\n"
  | .error e =>
    "  \"perf_ok\": false,\n" ++
    "  \"perf_error\": " ++ intDec e ++ ",\n"

/-- Standard-output text of the health block (source lines 54–62); the final
    line of either branch carries no trailing comma. -/
def healthBlock : Except Int HealthStats → String
  | .ok h =>
    "  \"on_die_temperature\": " ++ fmtGStr h.on_die_temperature ++ ",\n" ++
    "  \"on_die_voltage\": " ++ intDec h.on_die_voltage ++ ",\n" ++
    "  \"bist_failure_mask\": " ++ intDec (h.bist_failure_mask : Int) ++ ",\n" ++
    "  \"health_ok\": true\n"
  | .error e =>
    "  \"health_ok\": false,\n" ++
    "  \"health_error\": " ++ intDec e ++ "\n"

/-- The whole standard output of a run that reached the queries (source
    lines 38–64): `{`, performance block, health block, `}`. -/
def mainOutput (perf : Except Int PerformanceStats) (health : Except Int HealthStats) :
    String :=
  "\x7b\n" ++ perfBlock perf ++ healthBlock health ++ "\x7d\n"

/-! ### The process model -/

/-- Modelled from the spec (§4.1): device identifiers are opaque; strings. -/
abbrev DeviceId := String

instance {ε α : Type} [DecidableEq ε] [DecidableEq α] : DecidableEq (Except ε α)
  | .ok a, .ok b =>
    if h : a = b then .isTrue (congrArg Except.ok h)
    else .isFalse (fun he => h (Except.ok.inj he))
  | .ok _, .error _ => .isFalse (fun he => Except.noConfusion he)
  | .error _, .ok _ => .isFalse (fun he => Except.noConfusion he)
  | .error a, .error b =>
    if h : a = b then .isTrue (congrArg Except.error h)
    else .isFalse (fun he => h (Except.error.inj he))

/-- The behaviour of one attached device, as far as this program observes
    it: the outcome of each of the two queries. -/
structure Device where
  perf : Except Int PerformanceStats
  health : Except Int HealthStats
deriving DecidableEq

/-- Modelled from the spec (§6, upstream dependency contract): what the
    external HailoRT SDK supplies — a scan outcome and, per identifier, an
    open outcome bundling the device's query results. -/
structure Env where
  scan : Except Int (List DeviceId)
  create : DeviceId → Except Int Device

/-- SDK calls the program issues, in order: open attempts and queries,
    tagged with the identifier they address. -/
inductive Event where
  | opened : DeviceId → Event
  | queriedPerf : DeviceId → Event
  | queriedHealth : DeviceId → Event
deriving DecidableEq

structure ProcResult where
  exitCode : Nat
  stdout : String
  stderr : String
  trace : List Event
deriving DecidableEq

def progName : String := "hailo_perf_query"

/-- Source line 23: `fprintf(stderr, "hailo_perf_query: no devices found\n")`. -/
def noDevicesMsg : String := "hailo_perf_query: no devices found\n"

/-- Source lines 30–31: the open-failure diagnostic with the numeric status. -/
def openFailMsg (s : Int) : String :=
  "hailo_perf_query: failed to open device (status=" ++ intDec s ++ ")\n"

/-- `main` (source lines 19–66).  `!scan_result || scan_result->empty()` is
    the first guard; `scan_result->at(0)` selects the first identifier; a
    failed `Device::create` aborts with its status; otherwise both queries
    are issued unconditionally and the JSON is printed. -/
def runMain (env : Env) : ProcResult :=
  match env.scan with
  | .error _ => ⟨1, "", noDevicesMsg, []⟩
  | .ok [] => ⟨1, "", noDevicesMsg, []⟩
  | .ok (id0 :: _) =>
    match env.create id0 with
    | .error s => ⟨1, "", openFailMsg s, [.opened id0]⟩
    | .ok dev =>
      ⟨0, mainOutput dev.perf dev.health, "",
        [.opened id0, .queriedPerf id0, .queriedHealth id0]⟩

/-! ### Fusing printf format-string literals with the generic object printer

The `printf` calls carry each key fused into the format-string literal, while
`renderMembers` quotes keys generically; these rewrites merge adjacent string
literals (associated to the right) so the two spellings normalise to the same
text. -/

theorem strFuse (a b c x : String) (h : a ++ b = c) : a ++ (b ++ x) = c ++ x := by
  rw [← String.append_assoc, h]

theorem fA_cpu (x : String) :
    "  \"" ++ ("cpu_utilization" ++ x) = "  \"cpu_utilization" ++ x := strFuse _ _ _ x rfl

theorem fB_cpu (x : String) :
    "  \"cpu_utilization" ++ ("\": " ++ x) = "  \"cpu_utilization\": " ++ x := strFuse _ _ _ x rfl

theorem fA_ramt (x : String) :
    "  \"" ++ ("ram_size_total" ++ x) = "  \"ram_size_total" ++ x := strFuse _ _ _ x rfl

theorem fB_ramt (x : String) :
    "  \"ram_size_total" ++ ("\": " ++ x) = "  \"ram_size_total\": " ++ x := strFuse _ _ _ x rfl

theorem fA_ramu (x : String) :
    "  \"" ++ ("ram_size_used" ++ x) = "  \"ram_size_used" ++ x := strFuse _ _ _ x rfl

theorem fB_ramu (x : String) :
    "  \"ram_size_used" ++ ("\": " ++ x) = "  \"ram_size_used\": " ++ x := strFuse _ _ _ x rfl

theorem fA_nnc (x : String) :
    "  \"" ++ ("nnc_utilization" ++ x) = "  \"nnc_utilization" ++ x := strFuse _ _ _ x rfl

theorem fB_nnc (x : String) :
    "  \"nnc_utilization" ++ ("\": " ++ x) = "  \"nnc_utilization\": " ++ x := strFuse _ _ _ x rfl

theorem fA_dsp (x : String) :
    "  \"" ++ ("dsp_utilization" ++ x) = "  \"dsp_utilization" ++ x := strFuse _ _ _ x rfl

theorem fB_dsp (x : String) :
    "  \"dsp_utilization" ++ ("\": " ++ x) = "  \"dsp_utilization\": " ++ x := strFuse _ _ _ x rfl

theorem fA_pok (x : String) :
    "  \"" ++ ("perf_ok" ++ x) = "  \"perf_ok" ++ x := strFuse _ _ _ x rfl

theorem fB_pok (x : String) :
    "  \"perf_ok" ++ ("\": " ++ x) = "  \"perf_ok\": " ++ x := strFuse _ _ _ x rfl

theorem fA_perr (x : String) :
    "  \"" ++ ("perf_error" ++ x) = "  \"perf_error" ++ x := strFuse _ _ _ x rfl

theorem fB_perr (x : String) :
    "  \"perf_error" ++ ("\": " ++ x) = "  \"perf_error\": " ++ x := strFuse _ _ _ x rfl

theorem fA_temp (x : String) :
    "  \"" ++ ("on_die_temperature" ++ x) = "  \"on_die_temperature" ++ x := strFuse _ _ _ x rfl

theorem fB_temp (x : String) :
    "  \"on_die_temperature" ++ ("\": " ++ x) = "  \"on_die_temperature\": " ++ x :=
  strFuse _ _ _ x rfl

theorem fA_volt (x : String) :
    "  \"" ++ ("on_die_voltage" ++ x) = "  \"on_die_voltage" ++ x := strFuse _ _ _ x rfl

theorem fB_volt (x : String) :
    "  \"on_die_voltage" ++ ("\": " ++ x) = "  \"on_die_voltage\": " ++ x := strFuse _ _ _ x rfl

theorem fA_bist (x : String) :
    "  \"" ++ ("bist_failure_mask" ++ x) = "  \"bist_failure_mask" ++ x := strFuse _ _ _ x rfl

theorem fB_bist (x : String) :
    "  \"bist_failure_mask" ++ ("\": " ++ x) = "  \"bist_failure_mask\": " ++ x :=
  strFuse _ _ _ x rfl

theorem fA_hok (x : String) :
    "  \"" ++ ("health_ok" ++ x) = "  \"health_ok" ++ x := strFuse _ _ _ x rfl

theorem fB_hok (x : String) :
    "  \"health_ok" ++ ("\": " ++ x) = "  \"health_ok\": " ++ x := strFuse _ _ _ x rfl

theorem fA_herr (x : String) :
    "  \"" ++ ("health_error" ++ x) = "  \"health_error" ++ x := strFuse _ _ _ x rfl

theorem fB_herr (x : String) :
    "  \"health_error" ++ ("\": " ++ x) = "  \"health_error\": " ++ x := strFuse _ _ _ x rfl

theorem fV_pok_t (x : String) :
    "  \"perf_ok\": " ++ ("true" ++ x) = "  \"perf_ok\": true" ++ x := strFuse _ _ _ x rfl

theorem fV_pok_tc (x : String) :
    "  \"perf_ok\": true" ++ (",\n" ++ x) = "  \"perf_ok\": true,\n" ++ x := strFuse _ _ _ x rfl

theorem fV_pok_f (x : String) :
    "  \"perf_ok\": " ++ ("false" ++ x) = "  \"perf_ok\": false" ++ x := strFuse _ _ _ x rfl

theorem fV_pok_fc (x : String) :
    "  \"perf_ok\": false" ++ (",\n" ++ x) = "  \"perf_ok\": false,\n" ++ x := strFuse _ _ _ x rfl

theorem fV_hok_t (x : String) :
    "  \"health_ok\": " ++ ("true" ++ x) = "  \"health_ok\": true" ++ x := strFuse _ _ _ x rfl

theorem fV_hok_tn (x : String) :
    "  \"health_ok\": true" ++ ("\n" ++ x) = "  \"health_ok\": true\n" ++ x := strFuse _ _ _ x rfl

theorem fV_hok_f (x : String) :
    "  \"health_ok\": " ++ ("false" ++ x) = "  \"health_ok\": false" ++ x := strFuse _ _ _ x rfl

theorem fV_hok_fc (x : String) :
    "  \"health_ok\": false" ++ (",\n" ++ x) = "  \"health_ok\": false,\n" ++ x :=
  strFuse _ _ _ x rfl

/-- The text the `printf` sequence produces is exactly the generic JSON
    object rendering of the members `membersOf` describes. -/
theorem mainOutput_eq_renderObj (p : Except Int PerformanceStats)
    (h : Except Int HealthStats) :
    mainOutput p h = renderObj (membersOf p h) := by
  cases p <;> cases h <;>
    simp only [mainOutput, perfBlock, healthBlock, renderObj, membersOf, perfMembers,
      healthMembers, List.cons_append, List.nil_append, renderMembers, JValue.render,
      fmtGStr, intDec, String.append_assoc,
      fA_cpu, fB_cpu, fA_ramt, fB_ramt, fA_ramu, fB_ramu, fA_nnc, fB_nnc, fA_dsp, fB_dsp,
      fA_pok, fB_pok, fA_perr, fB_perr, fA_temp, fB_temp, fA_volt, fB_volt, fA_bist, fB_bist,
      fA_hok, fB_hok, fA_herr, fB_herr, fV_pok_t, fV_pok_tc, fV_pok_f, fV_pok_fc,
      fV_hok_t, fV_hok_tn, fV_hok_f, fV_hok_fc]

/-- Every object the program can emit is well-formed JSON: all numerals
    satisfy the number grammar and the keys are distinct. -/
theorem membersWf_membersOf (p : Except Int PerformanceStats)
    (h : Except Int HealthStats) : membersWf (membersOf p h) = true := by
  cases p <;> cases h <;>
    simp [membersWf, membersOf, perfMembers, healthMembers, JValue.wfB,
      fmtG_wf, intJNum_wf]

/-- Rendering a sign-free integral numeral is just its digit string. -/
theorem render_nonneg (ds : List Nat) :
    JNum.render ⟨false, ds, [], none⟩ = digitsStr ds := by
  rw [JNum.render]
  simp

/-- Whether a query call succeeded (the truth value of `if (perf)` /
    `if (health)` in the source). -/
def queryOk {α : Type} : Except Int α → Bool
  | .ok _ => true
  | .error _ => false

/-! ### Concrete environments used by the witnesses -/

def devW1 : Device := ⟨.ok ⟨1 / 2, 4, 2, 1 / 4, 3⟩, .error 7⟩

def envW1 : Env := ⟨.ok ["hailo0"], fun _ => .ok devW1⟩

def devW3 : Device := ⟨.error 3, .ok ⟨55.5, 900, 0⟩⟩

def envW3 : Env := ⟨.ok ["hailo0"], fun _ => .ok devW3⟩

def envW5 : Env := ⟨.ok [], fun _ => .error 0⟩

def envW6 : Env := ⟨.ok ["hailo0"], fun _ => .error 57⟩

def envW10 : Env := ⟨.error 5, fun _ => .error 0⟩

/-- The §8 P3 performance values. -/
def p3perf : PerformanceStats := ⟨0.42, 1073741824, 536870912, 0.10, 5⟩

/-- The §8 P3 health values. -/
def p3health : HealthStats := ⟨55.5, 900, 0⟩

def envP3 : Env := ⟨.ok ["hailo0"], fun _ => .ok ⟨.ok p3perf, .ok p3health⟩⟩

/-! ### The claims -/

/-- C1: for every combination of outcomes of the two queries, once both have
    been issued the process writes exactly one well-formed, newline-terminated
    JSON object to standard output, nothing else, and exits 0. -/
theorem spec_C1 (env : Env) (id0 : DeviceId) (rest : List DeviceId) (dev : Device)
    (hscan : env.scan = .ok (id0 :: rest)) (hcreate : env.create id0 = .ok dev) :
    (runMain env).exitCode = 0 ∧
    (runMain env).stdout = renderObj (membersOf dev.perf dev.health) ∧
    membersWf (membersOf dev.perf dev.health) = true ∧
    ∃ t : String, (runMain env).stdout = t ++ "\n" := by
  have hr : runMain env =
      ⟨0, mainOutput dev.perf dev.health, "",
        [.opened id0, .queriedPerf id0, .queriedHealth id0]⟩ := by
    simp only [runMain, hscan, hcreate]
  refine ⟨by rw [hr], ?_, membersWf_membersOf _ _, ?_⟩
  · rw [hr]
    exact mainOutput_eq_renderObj dev.perf dev.health
  · refine ⟨"\x7b\n" ++ perfBlock dev.perf ++ healthBlock dev.health ++ "\x7d", ?_⟩
    rw [hr]
    show mainOutput dev.perf dev.health = _
    rw [mainOutput]
    conv_rhs => rw [String.append_assoc]
    rfl

theorem spec_C1_witness :
    (runMain envW1).exitCode = 0 ∧
    (runMain envW1).stdout = renderObj (membersOf devW1.perf devW1.health) ∧
    membersWf (membersOf devW1.perf devW1.health) = true ∧
    ∃ t : String, (runMain envW1).stdout = t ++ "\n" :=
  spec_C1 envW1 "hailo0" [] devW1 rfl rfl

/-- C2: on the P3 inputs the program emits exactly the §6 object with the
    literal values substituted, `perf_ok: true`, `health_ok: true`, and exits
    0 (the `%g` shortest rendering prints the value 0.10 as `0.1`). -/
theorem spec_C2 :
    runMain envP3 =
      ⟨0,
       "\x7b\n  \"cpu_utilization\": 0.42,\n  \"ram_size_total\": 1073741824,\n  \"ram_size_used\": 536870912,\n  \"nnc_utilization\": 0.1,\n  \"dsp_utilization\": 5,\n  \"perf_ok\": true,\n  \"on_die_temperature\": 55.5,\n  \"on_die_voltage\": 900,\n  \"bist_failure_mask\": 0,\n  \"health_ok\": true\n\x7d\n",
       "",
       [.opened "hailo0", .queriedPerf "hailo0", .queriedHealth "hailo0"]⟩ := by
  set_option maxRecDepth 100000 in decide

/-- C3: the two queries are independent — in every outcome both are issued,
    a failing query is absorbed as its `_ok: false` flag plus numeric
    `_error` code, the other block is still reported, and the process exits
    0. -/
theorem spec_C3 (env : Env) (id0 : DeviceId) (rest : List DeviceId) (dev : Device)
    (hscan : env.scan = .ok (id0 :: rest)) (hcreate : env.create id0 = .ok dev) :
    (runMain env).exitCode = 0 ∧
    Event.queriedPerf id0 ∈ (runMain env).trace ∧
    Event.queriedHealth id0 ∈ (runMain env).trace ∧
    (runMain env).stdout = renderObj (perfMembers dev.perf ++ healthMembers dev.health) ∧
    (∀ e : Int, dev.perf = .error e →
      perfMembers dev.perf =
        [⟨"perf_ok", .jbool false⟩, ⟨"perf_error", .jnum (intJNum e)⟩]) ∧
    (∀ e : Int, dev.health = .error e →
      healthMembers dev.health =
        [⟨"health_ok", .jbool false⟩, ⟨"health_error", .jnum (intJNum e)⟩]) := by
  have hr : runMain env =
      ⟨0, mainOutput dev.perf dev.health, "",
        [.opened id0, .queriedPerf id0, .queriedHealth id0]⟩ := by
    simp only [runMain, hscan, hcreate]
  refine ⟨by rw [hr], by rw [hr]; simp, by rw [hr]; simp, ?_, ?_, ?_⟩
  · rw [hr]
    exact mainOutput_eq_renderObj dev.perf dev.health
  · intro e he
    rw [he]
    rfl
  · intro e he
    rw [he]
    rfl

theorem spec_C3_witness :
    (runMain envW3).exitCode = 0 ∧
    Event.queriedPerf "hailo0" ∈ (runMain envW3).trace ∧
    Event.queriedHealth "hailo0" ∈ (runMain envW3).trace ∧
    (runMain envW3).stdout =
      renderObj (perfMembers devW3.perf ++ healthMembers devW3.health) ∧
    perfMembers devW3.perf =
      [⟨"perf_ok", .jbool false⟩, ⟨"perf_error", .jnum (intJNum 3)⟩] := by
  obtain ⟨h1, h2, h3, h4, h5, _⟩ := spec_C3 envW3 "hailo0" [] devW3 rfl rfl
  exact ⟨h1, h2, h3, h4, h5 3 rfl⟩

/-- C4: key ordering is asymmetric by branch — a successful block emits its
    data keys first and the `_ok: true` flag last, a failed block emits
    `_ok: false` first immediately followed by `_error`. -/
theorem spec_C4 :
    (∀ p : PerformanceStats,
      (perfMembers (.ok p)).map (fun m => m.key) =
        ["cpu_utilization", "ram_size_total", "ram_size_used", "nnc_utilization",
         "dsp_utilization", "perf_ok"] ∧
      (perfMembers (.ok p)).getLast? = some ⟨"perf_ok", .jbool true⟩) ∧
    (∀ e : Int, perfMembers (.error e) =
      [⟨"perf_ok", .jbool false⟩, ⟨"perf_error", .jnum (intJNum e)⟩]) ∧
    (∀ h : HealthStats,
      (healthMembers (.ok h)).map (fun m => m.key) =
        ["on_die_temperature", "on_die_voltage", "bist_failure_mask", "health_ok"] ∧
      (healthMembers (.ok h)).getLast? = some ⟨"health_ok", .jbool true⟩) ∧
    (∀ e : Int, healthMembers (.error e) =
      [⟨"health_ok", .jbool false⟩, ⟨"health_error", .jnum (intJNum e)⟩]) :=
  ⟨fun _ => ⟨rfl, rfl⟩, fun _ => rfl, fun _ => ⟨rfl, rfl⟩, fun _ => rfl⟩

/-- C5: an empty enumeration is fatal — exit 1, nothing on standard output,
    exactly the fixed line on standard error, and no further SDK calls. -/
theorem spec_C5 (env : Env) (hscan : env.scan = .ok []) :
    runMain env = ⟨1, "", noDevicesMsg, []⟩ ∧
    noDevicesMsg = progName ++ ": no devices found\n" := by
  constructor
  · simp only [runMain, hscan]
  · rfl

theorem spec_C5_witness :
    runMain envW5 = ⟨1, "", noDevicesMsg, []⟩ ∧
    noDevicesMsg = progName ++ ": no devices found\n" :=
  spec_C5 envW5 rfl

/-- C6: a failed open with status `S` is fatal — exit 1, no JSON on standard
    output, and the single standard-error line contains `status=S` with `S`
    in decimal. -/
theorem spec_C6 (env : Env) (id0 : DeviceId) (rest : List DeviceId) (s : Int)
    (hscan : env.scan = .ok (id0 :: rest)) (hcreate : env.create id0 = .error s) :
    (runMain env).exitCode = 1 ∧
    (runMain env).stdout = "" ∧
    (runMain env).stderr =
      "hailo_perf_query: failed to open device (status=" ++ intDec s ++ ")\n" ∧
    ∃ a b : String, (runMain env).stderr = a ++ ("status=" ++ intDec s) ++ b := by
  have hr : runMain env = ⟨1, "", openFailMsg s, [.opened id0]⟩ := by
    simp only [runMain, hscan, hcreate]
  refine ⟨by rw [hr], by rw [hr], by rw [hr]; rfl, ?_⟩
  refine ⟨"hailo_perf_query: failed to open device (", ")\n", ?_⟩
  rw [hr]
  show openFailMsg s = _
  rw [openFailMsg]
  have hfuse : "hailo_perf_query: failed to open device (" ++ ("status=" ++ intDec s) =
      "hailo_perf_query: failed to open device (status=" ++ intDec s :=
    strFuse _ _ _ _ rfl
  rw [hfuse]

theorem spec_C6_witness :
    (runMain envW6).exitCode = 1 ∧
    (runMain envW6).stdout = "" ∧
    (runMain envW6).stderr =
      "hailo_perf_query: failed to open device (status=" ++ intDec 57 ++ ")\n" ∧
    ∃ a b : String, (runMain envW6).stderr = a ++ ("status=" ++ intDec 57) ++ b :=
  spec_C6 envW6 "hailo0" [] 57 rfl rfl

/-- C7: whenever the scan yields a non-empty sequence the program opens
    exactly its first identifier, and no other identifier is ever opened or
    queried. -/
theorem spec_C7 (env : Env) :
    (∀ id0 rest, env.scan = .ok (id0 :: rest) →
      Event.opened id0 ∈ (runMain env).trace) ∧
    (∀ id, Event.opened id ∈ (runMain env).trace →
      ∃ rest, env.scan = .ok (id :: rest)) ∧
    (∀ id, Event.queriedPerf id ∈ (runMain env).trace →
      ∃ rest, env.scan = .ok (id :: rest)) ∧
    (∀ id, Event.queriedHealth id ∈ (runMain env).trace →
      ∃ rest, env.scan = .ok (id :: rest)) := by
  rcases hs : env.scan with s | ids
  · have hr : runMain env = ⟨1, "", noDevicesMsg, []⟩ := by
      simp only [runMain, hs]
    refine ⟨?_, ?_, ?_, ?_⟩
    · intro id0 rest h
      exact Except.noConfusion h
    all_goals
      intro id h
      rw [hr] at h
      simp at h
  · cases ids with
    | nil =>
      have hr : runMain env = ⟨1, "", noDevicesMsg, []⟩ := by
        simp only [runMain, hs]
      refine ⟨?_, ?_, ?_, ?_⟩
      · intro id0 rest h
        simp at h
      all_goals
        intro id h
        rw [hr] at h
        simp at h
    | cons id0 rest =>
      have htrace : ∀ id, Event.opened id ∈ (runMain env).trace ∨
          Event.queriedPerf id ∈ (runMain env).trace ∨
          Event.queriedHealth id ∈ (runMain env).trace → id = id0 := by
        intro id h
        rcases hc : env.create id0 with s0 | dev <;>
          simp only [runMain, hs, hc] at h <;>
          rcases h with h | h | h <;> simp at h <;> tauto
      refine ⟨?_, ?_, ?_, ?_⟩
      · intro id1 rest1 h
        have hinj := Except.ok.inj h
        have hid : id1 = id0 := (List.cons.inj hinj).1.symm
        subst hid
        rcases hc : env.create id1 with s0 | dev <;>
          simp [runMain, hs, hc]
      · intro id h
        have hid : id = id0 := htrace id (Or.inl h)
        subst hid
        exact ⟨rest, rfl⟩
      · intro id h
        have hid : id = id0 := htrace id (Or.inr (Or.inl h))
        subst hid
        exact ⟨rest, rfl⟩
      · intro id h
        have hid : id = id0 := htrace id (Or.inr (Or.inr h))
        subst hid
        exact ⟨rest, rfl⟩

theorem spec_C7_witness :
    Event.opened "hailo0" ∈ (runMain envW1).trace ∧
    ∃ rest, envW1.scan = .ok ("hailo0" :: rest) := by
  obtain ⟨h1, h2, _, _⟩ := spec_C7 envW1
  have hop : Event.opened "hailo0" ∈ (runMain envW1).trace := h1 "hailo0" [] rfl
  exact ⟨hop, h2 "hailo0" hop⟩

/-! ### C8: the `(long long)` cast of the 64-bit byte counts -/

theorem toLongLong_of_lt (n : Nat) (h : n < 2 ^ 63) : toLongLong n = (n : Int) := by
  rw [toLongLong, Nat.mod_eq_of_lt (by omega), if_pos h]

theorem intJNum_ofNat (n : Nat) :
    intJNum (n : Int) = ⟨false, natDecDigits n, [], none⟩ := by
  rw [intJNum]
  have h1 : decide ((n : Int) < 0) = false := decide_eq_false (by omega)
  have h2 : (n : Int).natAbs = n := Int.natAbs_ofNat n
  rw [h1, h2]

/-- A performance snapshot whose `ram_size_total` is `2^63` bytes: a legal
    `uint64_t` byte count on which the cast `(long long)` wraps. -/
def c8perf : PerformanceStats := ⟨0, 2 ^ 63, 0, 0, 0⟩

/-- C8 counterexample: at `ram_size_total = 2^63` the emitted numeral is
    `-9223372036854775808` — negative and not equal to the source value's
    decimal — because the source casts the `uint64_t` to `long long` and
    prints it with `%lld`. -/
theorem spec_C8_counterexample :
    c8perf.ram_size_total = 2 ^ 63 ∧
    toLongLong c8perf.ram_size_total = -(2 ^ 63) ∧
    (intJNum (toLongLong c8perf.ram_size_total)).render = "-9223372036854775808" ∧
    (⟨"ram_size_total", .jnum (intJNum (toLongLong c8perf.ram_size_total))⟩ : JMember) ∈
      perfMembers (.ok c8perf) ∧
    (intJNum (toLongLong c8perf.ram_size_total)).render ≠ natDec c8perf.ram_size_total := by
  set_option maxRecDepth 100000 in decide

/-- C8 (amended): for every successful query, provided the RAM byte counts
    are below `2^63`, the fields `ram_size_total`, `ram_size_used` and
    `bist_failure_mask` are rendered in the JSON output as sign-free decimal
    numerals whose digits denote exactly the source field's value. -/
theorem spec_C8 (p : PerformanceStats) (h : HealthStats)
    (ht : p.ram_size_total < 2 ^ 63) (hu : p.ram_size_used < 2 ^ 63) :
    (⟨"ram_size_total", .jnum (intJNum (toLongLong p.ram_size_total))⟩ : JMember) ∈
      perfMembers (.ok p) ∧
    (⟨"ram_size_used", .jnum (intJNum (toLongLong p.ram_size_used))⟩ : JMember) ∈
      perfMembers (.ok p) ∧
    (⟨"bist_failure_mask", .jnum (intJNum (h.bist_failure_mask : Int))⟩ : JMember) ∈
      healthMembers (.ok h) ∧
    intJNum (toLongLong p.ram_size_total) =
      ⟨false, natDecDigits p.ram_size_total, [], none⟩ ∧
    intJNum (toLongLong p.ram_size_used) =
      ⟨false, natDecDigits p.ram_size_used, [], none⟩ ∧
    intJNum (h.bist_failure_mask : Int) =
      ⟨false, natDecDigits h.bist_failure_mask, [], none⟩ ∧
    (intJNum (toLongLong p.ram_size_total)).render = natDec p.ram_size_total ∧
    (intJNum (toLongLong p.ram_size_used)).render = natDec p.ram_size_used ∧
    (intJNum (h.bist_failure_mask : Int)).render = natDec h.bist_failure_mask ∧
    digitsVal (natDecDigits p.ram_size_total) = p.ram_size_total ∧
    digitsVal (natDecDigits p.ram_size_used) = p.ram_size_used ∧
    digitsVal (natDecDigits h.bist_failure_mask) = h.bist_failure_mask := by
  have e1 := toLongLong_of_lt _ ht
  have e2 := toLongLong_of_lt _ hu
  refine ⟨by simp [perfMembers], by simp [perfMembers], by simp [healthMembers],
    ?_, ?_, ?_, ?_, ?_, ?_,
    digitsVal_natDecDigits _, digitsVal_natDecDigits _, digitsVal_natDecDigits _⟩
  · rw [e1, intJNum_ofNat]
  · rw [e2, intJNum_ofNat]
  · rw [intJNum_ofNat]
  · rw [e1, intJNum_ofNat, render_nonneg]
    rfl
  · rw [e2, intJNum_ofNat, render_nonneg]
    rfl
  · rw [intJNum_ofNat, render_nonneg]
    rfl

theorem spec_C8_witness :
    p3perf.ram_size_total < 2 ^ 63 ∧
    p3perf.ram_size_used < 2 ^ 63 ∧
    ((intJNum (toLongLong p3perf.ram_size_total)).render = natDec p3perf.ram_size_total ∧
     (intJNum (toLongLong p3perf.ram_size_used)).render = natDec p3perf.ram_size_used ∧
     (intJNum (p3health.bist_failure_mask : Int)).render = natDec p3health.bist_failure_mask) := by
  obtain ⟨_, _, _, _, _, _, r1, r2, r3, _, _, _⟩ :=
    spec_C8 p3perf p3health (by norm_num [p3perf]) (by norm_num [p3perf])
  exact ⟨by norm_num [p3perf], by norm_num [p3perf], r1, r2, r3⟩

/-- C9: the rendering is deterministic in the query outcomes — equal
    success/failure statuses of the two queries give JSON objects with
    identical key sequences and value types. -/
theorem spec_C9 (p1 p2 : Except Int PerformanceStats) (h1 h2 : Except Int HealthStats)
    (hp : queryOk p1 = queryOk p2) (hh : queryOk h1 = queryOk h2) :
    schemaOf (membersOf p1 h1) = schemaOf (membersOf p2 h2) := by
  cases p1 <;> cases p2 <;> cases h1 <;> cases h2 <;>
    first
      | exact Bool.noConfusion hp
      | exact Bool.noConfusion hh
      | simp [schemaOf, membersOf, perfMembers, healthMembers, JValue.tag]

theorem spec_C9_witness :
    queryOk (Except.ok p3perf : Except Int PerformanceStats) =
      queryOk (Except.ok c8perf : Except Int PerformanceStats) ∧
    queryOk (Except.ok p3health : Except Int HealthStats) =
      queryOk (Except.ok ⟨0, 0, 0⟩ : Except Int HealthStats) ∧
    schemaOf (membersOf (.ok p3perf) (.ok p3health)) =
      schemaOf (membersOf (.ok c8perf) (.ok ⟨0, 0, 0⟩)) :=
  ⟨rfl, rfl, spec_C9 (.ok p3perf) (.ok c8perf) (.ok p3health) (.ok ⟨0, 0, 0⟩) rfl rfl⟩

/-- C10: a failed scan takes exactly the no-devices path — exit 1, no JSON,
    the `no devices found` line — so a scan error is indistinguishable from
    an empty enumeration at the process boundary. -/
theorem spec_C10 (env : Env) (s : Int) (hscan : env.scan = .error s) :
    runMain env = ⟨1, "", noDevicesMsg, []⟩ ∧
    runMain env = runMain ⟨Except.ok [], env.create⟩ := by
  constructor <;> simp only [runMain, hscan]

theorem spec_C10_witness :
    runMain envW10 = ⟨1, "", noDevicesMsg, []⟩ ∧
    runMain envW10 = runMain ⟨Except.ok [], envW10.create⟩ :=
  spec_C10 envW10 5 rfl
